import Mathlib

/-!
Shallow embedding of the progress-tracking CLI (`src/cli/main.py`) and the
agent driver (`src/agents/postgres_agent.py`).

Conventions of the embedding:
* Python `time.time()` timestamps are modelled as exact rationals `ℚ`;
  the claims under study are about bookkeeping, not float rounding.
* Python dicts `dict[int, float]` are modelled as total maps
  `Int → Option ℚ` (`none` = key absent).
* Python truthiness (`x or y`, `if x:`) is modelled explicitly by the
  `pyOrQ` / `pyTruthyQ` / `pyTruthyStr` helpers: `None`, `0.0` and `""`
  are falsy.
* `f"{x:.1f}"` float formatting is modelled by `fmtFixed 1 x`:
  round to nearest at the requested number of decimals over `ℚ`.
-/

namespace CliMain

/-- A todo entry as received from the agent: a Python dict that may or may
not carry `status` and `content` keys (`none` = key missing). -/
structure Todo where
  status  : Option String
  content : Option String
deriving DecidableEq, Repr

/-- Embeds `todo.get("status", "pending")` from `update_todos`/`create_table`. -/
def Todo.getStatus (t : Todo) : String := t.status.getD "pending"

/-- Embeds `todo.get("content", "")` from `create_table`. -/
def Todo.getContent (t : Todo) : String := t.content.getD ""

/-- Python `a or b` on an optional float: `None` and `0.0` are falsy. -/
def pyOrQ (a : Option ℚ) (b : ℚ) : ℚ :=
  match a with
  | none => b
  | some x => if x = 0 then b else x

/-- Python truthiness of an optional float (`if result.total_cost_usd:`). -/
def pyTruthyQ (a : Option ℚ) : Bool :=
  match a with
  | none => false
  | some x => decide (x ≠ 0)

/-- Python truthiness of a string (`if msg_preview ...`). -/
def pyTruthyStr (s : String) : Bool := s ≠ ""

/-- A todo dict with both keys filled in by the defaults that
`update_todos` and `create_table` apply (`.get("status", "pending")`,
`.get("content", "")`). -/
def normalizeTodo (t : Todo) : Todo :=
  ⟨some t.getStatus, some t.getContent⟩

/-- State of `TodoTracker` (`src/cli/main.py`, `__init__`). -/
structure TodoTracker where
  todos : List Todo
  task_start_times : Int → Option ℚ
  task_end_times : Int → Option ℚ
  agent_start_time : Option ℚ
  current_message_type : String
  current_message_preview : String

/-- The freshly constructed tracker (`TodoTracker.__init__`). -/
def initTracker : TodoTracker :=
  { todos := []
    task_start_times := fun _ => none
    task_end_times := fun _ => none
    agent_start_time := none
    current_message_type := ""
    current_message_preview := "" }

/-- One iteration of the `for i, todo in enumerate(todos)` loop body of
`update_todos`: record a first start time for a newly in-progress index and
a first end time for a newly completed index. -/
def recordTodo (now : ℚ) (i : Int) (todo : Todo)
    (p : (Int → Option ℚ) × (Int → Option ℚ)) :
    (Int → Option ℚ) × (Int → Option ℚ) :=
  let status := todo.getStatus
  let st := if status = "in_progress" ∧ p.1 i = none
            then fun j => if j = i then some now else p.1 j
            else p.1
  let en := if status = "completed" ∧ p.2 i = none
            then fun j => if j = i then some now else p.2 j
            else p.2
  (st, en)

/-- The whole `enumerate` loop of `update_todos`, threading the two
timestamp dicts through the todo list (paired with its indices). -/
def recordAll (now : ℚ) :
    List (Nat × Todo) → (Int → Option ℚ) × (Int → Option ℚ) →
    (Int → Option ℚ) × (Int → Option ℚ)
  | [], p => p
  | (i, td) :: rest, p => recordAll now rest (recordTodo now (i : Int) td p)

/-- Embeds `TodoTracker.update_todos(todos)` called when the clock reads `now`. -/
def updateTodos (s : TodoTracker) (todos : List Todo) (now : ℚ) : TodoTracker :=
  let p := recordAll now todos.enum (s.task_start_times, s.task_end_times)
  { s with todos := todos, task_start_times := p.1, task_end_times := p.2 }

/-- A sequence of `update_todos` calls: each element is the snapshot passed
in and the clock reading at which the call happens. -/
def runUpdates (s : TodoTracker) : List (List Todo × ℚ) → TodoTracker
  | [] => s
  | (todos, now) :: rest => runUpdates (updateTodos s todos now) rest

/-- Model of Python `str.strip()`: drop whitespace characters from both
ends of the character sequence. -/
def pyStrip (s : String) : String :=
  String.mk (((s.data.dropWhile Char.isWhitespace).reverse.dropWhile
    Char.isWhitespace).reverse)

/-- Model of Python splitting at newlines and keeping the head: the
characters before the first newline. -/
def firstLine (s : String) : String :=
  String.mk (s.data.takeWhile (fun c => c ≠ Char.ofNat 10))

/-- Embeds `TodoTracker.update_message(msg_type, msg_preview)`:
`self.current_message_preview = msg_preview.strip() if msg_preview else ""`. -/
def updateMessage (s : TodoTracker) (msg_type msg_preview : String) : TodoTracker :=
  { s with
    current_message_type := msg_type
    current_message_preview := if pyTruthyStr msg_preview then pyStrip msg_preview else "" }

/-- Embeds `TodoTracker.get_task_time(index)` with the clock reading `now`. -/
def getTaskTime (s : TodoTracker) (now : ℚ) (index : Int) : ℚ :=
  match s.task_end_times index with
  | some e =>
      let start := (s.task_start_times index).getD (pyOrQ s.agent_start_time now)
      e - start
  | none =>
      match s.task_start_times index with
      | some st => now - st
      | none => 0

/-- Left-pad a digit string with zeros to the given length. -/
def padZeros (s : String) (len : Nat) : String :=
  (List.replicate (len - s.length) (Char.ofNat 48)).asString ++ s

/-- Render a scaled integer `z` (the value times `10 ^ prec`) as a decimal
numeral with `prec` digits after the point. -/
def fmtScaled (prec : Nat) (z : Int) : String :=
  let sign := if z < 0 then "-" else ""
  let a := z.natAbs
  if prec = 0 then sign ++ toString a
  else sign ++ toString (a / 10 ^ prec) ++ "." ++ padZeros (toString (a % 10 ^ prec)) prec

/-- Model of Python fixed-point float formatting `f"{q:.prec f}"`:
round to nearest at `prec` decimals over the exact rational value. -/
def fmtFixed (prec : Nat) (q : ℚ) : String :=
  fmtScaled prec ⌊q * ((10 : ℚ) ^ prec) + 1/2⌋

/-- The header message of `create_table`: first line of the current
preview truncated to 70 characters (split at newline, take 70), or the
waiting placeholder. -/
def headerMsg (s : TodoTracker) : String :=
  if pyTruthyStr s.current_message_preview
  then String.mk ((firstLine s.current_message_preview).data.take 70)
  else "Waiting for response..."

/-- The pieces of one per-todo row of the table: the icon `rich.Text`
(text and style) followed by `" {content} "` and the dim time text. -/
structure TaskRow where
  iconText  : String
  iconStyle : String
  content   : String
  timeText  : String
deriving DecidableEq, Repr

/-- The body of the `for i, todo in enumerate(self.todos)` loop of
`create_table`, producing one row. -/
def renderTask (s : TodoTracker) (now : ℚ) (spinner_state : String)
    (i : Int) (todo : Todo) : TaskRow :=
  let status := todo.getStatus
  let content := todo.getContent
  let task_time := getTaskTime s now i
  if status = "completed" then
    ⟨"[✓]", "green bold", content, "(" ++ fmtFixed 1 task_time ++ "s)"⟩
  else if status = "in_progress" then
    ⟨"[" ++ spinner_state ++ "]", "cyan bold", content, "(" ++ fmtFixed 1 task_time ++ "s)"⟩
  else
    ⟨"[ ]", "dim", content, ""⟩

/-- One row of the rendered table. -/
inductive TableRow where
  | header (elapsedText msg : String)
  | blank
  | waiting (text : String)
  | task (r : TaskRow)
deriving DecidableEq, Repr

/-- Embeds `TodoTracker.create_table(agent_elapsed, spinner_state)`, with the
clock reading `now` threaded to the `get_task_time` calls. -/
def createTable (s : TodoTracker) (now : ℚ) (agent_elapsed : ℚ)
    (spinner_state : String) : List TableRow :=
  let hdr := TableRow.header ("Agent Execution (" ++ fmtFixed 1 agent_elapsed ++ "s) - ")
    (headerMsg s)
  if s.todos = [] then
    [hdr, TableRow.blank, TableRow.waiting (spinner_state ++ " Starting agent...")]
  else
    hdr :: TableRow.blank ::
      s.todos.enum.map (fun it => TableRow.task (renderTask s now spinner_state (it.1 : Int) it.2))

/-- Embeds `ResultMessage` as consumed by the driver: error flag, result text,
duration in milliseconds, turn count, optional cost. -/
structure ResultMessage where
  is_error : Bool
  result : Option String
  duration_ms : ℚ
  num_turns : Int
  total_cost_usd : Option ℚ
deriving DecidableEq, Repr

/-- The stats f-string of `run_agent_with_ui`:
`f"Duration: {result.duration_ms / 1000:.1f}s | Turns: {result.num_turns}"`. -/
def statsBase (result : ResultMessage) : String :=
  "Duration: " ++ fmtFixed 1 (result.duration_ms / 1000) ++ "s | Turns: "
    ++ toString result.num_turns

/-- The final stats line printed by `run_agent_with_ui`, including the
conditional cost suffix guarded by Python truthiness. -/
def statsLine (result : ResultMessage) : String :=
  if pyTruthyQ result.total_cost_usd then
    statsBase result ++ " | Cost: $"
      ++ fmtFixed 4 ((result.total_cost_usd).getD 0)
  else
    statsBase result

end CliMain

namespace PostgresAgent

open CliMain (ResultMessage)

/-- A message from `client.receive_messages()` as the `run` loop sees it:
either a terminal `ResultMessage` or any other message kind. -/
inductive AgentMessage where
  | result (r : ResultMessage)
  | other (typeName : String)
deriving DecidableEq, Repr

/-- The `async for message in client.receive_messages()` loop of
`PostgresAgent.run`: scan the stream, stop at the first `ResultMessage`. -/
def findResult : List AgentMessage → Option ResultMessage
  | [] => none
  | AgentMessage.result r :: _ => some r
  | AgentMessage.other _ :: rest => findResult rest

/-- The tail of `PostgresAgent.run`: return the received `ResultMessage`,
or raise `RuntimeError("No result message received from agent")` when the
stream ended without one. -/
def runReceive (msgs : List AgentMessage) : Except String ResultMessage :=
  match findResult msgs with
  | some r => Except.ok r
  | none => Except.error "No result message received from agent"

end PostgresAgent

namespace CliMain

/-! Concrete states used by the example theorems below. -/

/-- A newline as a string. -/
def nlStr : String := String.mk [Char.ofNat 10]

/-- Tracker after one `update_todos` call at time 1 whose snapshot marks
index 0 as completed (never observed in progress). -/
def cexS1 : TodoTracker := updateTodos initTracker [⟨some "completed", some "x"⟩] 1

/-- State `cexS1` after a further `update_todos` call at time 2 whose snapshot
reverts index 0 to in progress. -/
def cexS2 : TodoTracker := updateTodos cexS1 [⟨some "in_progress", some "x"⟩] 2

/-- A tracker with a run start time of 5 and an end time of 7 recorded at
index 0 without any start time. -/
def wtEnd : TodoTracker :=
  { initTracker with
    agent_start_time := some 5
    task_end_times := fun j => if j = 0 then some 7 else none }

/-- A tracker whose index 0 is in progress since time 3. -/
def wtStart : TodoTracker :=
  { initTracker with
    agent_start_time := some 1
    task_start_times := fun j => if j = 0 then some 3 else none }

/-- A tracker holding a single pending todo. -/
def wtPending : TodoTracker :=
  { initTracker with todos := [⟨some "pending", some "x"⟩] }

/-- A successful result carrying cost data of 1/8 USD. -/
def wRes : ResultMessage := ⟨false, some "done", 1234, 3, some (1/8)⟩

/-- A successful result whose cost data is present but equal to 0. -/
def wRes0 : ResultMessage := ⟨false, none, 1000, 3, some 0⟩

end CliMain

open CliMain PostgresAgent

/-! ### Helper lemmas about `update_todos` -/

/-- One loop iteration of `update_todos` never overwrites a recorded
start time. -/
theorem recordTodo_pres_start (now : ℚ) (k : Int) (td : Todo)
    (p : (Int → Option ℚ) × (Int → Option ℚ)) (i : Int) (t : ℚ)
    (h : p.1 i = some t) : (recordTodo now k td p).1 i = some t := by
  unfold recordTodo
  dsimp only
  split_ifs with hc
  · by_cases hik : i = k
    · rw [hik] at h; rw [hc.2] at h; exact absurd h (by simp)
    · simp [hik, h]
  · exact h

/-- One loop iteration of `update_todos` never overwrites a recorded
end time. -/
theorem recordTodo_pres_end (now : ℚ) (k : Int) (td : Todo)
    (p : (Int → Option ℚ) × (Int → Option ℚ)) (i : Int) (t : ℚ)
    (h : p.2 i = some t) : (recordTodo now k td p).2 i = some t := by
  unfold recordTodo
  dsimp only
  split_ifs with hc
  · by_cases hik : i = k
    · rw [hik] at h; rw [hc.2] at h; exact absurd h (by simp)
    · simp [hik, h]
  · exact h

/-- The `update_todos` loop never overwrites recorded start/end times. -/
theorem recordAll_pres (now : ℚ) (l : List (Nat × Todo)) :
    ∀ (p : (Int → Option ℚ) × (Int → Option ℚ)) (i : Int) (t : ℚ),
      (p.1 i = some t → (recordAll now l p).1 i = some t) ∧
      (p.2 i = some t → (recordAll now l p).2 i = some t) := by
  induction l with
  | nil => intro p i t; exact ⟨fun h => h, fun h => h⟩
  | cons hd tl ih =>
      intro p i t
      obtain ⟨k, td⟩ := hd
      refine ⟨fun h => ?_, fun h => ?_⟩
      · exact (ih (recordTodo now (k : Int) td p) i t).1
          (recordTodo_pres_start now (k : Int) td p i t h)
      · exact (ih (recordTodo now (k : Int) td p) i t).2
          (recordTodo_pres_end now (k : Int) td p i t h)

/-- A single `update_todos` call never overwrites recorded times. -/
theorem updateTodos_pres (s : TodoTracker) (todos : List Todo) (now : ℚ)
    (i : Int) (t : ℚ) :
    (s.task_start_times i = some t →
      (updateTodos s todos now).task_start_times i = some t) ∧
    (s.task_end_times i = some t →
      (updateTodos s todos now).task_end_times i = some t) :=
  recordAll_pres now todos.enum (s.task_start_times, s.task_end_times) i t

/-- Any sequence of `update_todos` calls never overwrites recorded
start/end times. -/
theorem runUpdates_pres (s : TodoTracker) (calls : List (List Todo × ℚ))
    (i : Int) (t : ℚ) :
    (s.task_start_times i = some t →
      (runUpdates s calls).task_start_times i = some t) ∧
    (s.task_end_times i = some t →
      (runUpdates s calls).task_end_times i = some t) := by
  induction calls generalizing s with
  | nil => exact ⟨fun h => h, fun h => h⟩
  | cons c rest ih =>
      obtain ⟨todos, now⟩ := c
      refine ⟨fun h => ?_, fun h => ?_⟩
      · exact (ih (updateTodos s todos now)).1
          ((updateTodos_pres s todos now i t).1 h)
      · exact (ih (updateTodos s todos now)).2
          ((updateTodos_pres s todos now i t).2 h)

/-! ### C1 -/

/-- C1. First-write-wins timing invariant: once `update_todos` has
recorded a start time or an end time for index `i`, no later sequence of
`update_todos` calls — whatever snapshots and clock readings they carry,
including ones that revert the status at `i` — ever changes that recorded
time. -/
theorem first_write_wins (s : TodoTracker) (calls : List (List Todo × ℚ))
    (i : Int) (t : ℚ) :
    (s.task_start_times i = some t →
      (runUpdates s calls).task_start_times i = some t) ∧
    (s.task_end_times i = some t →
      (runUpdates s calls).task_end_times i = some t) :=
  runUpdates_pres s calls i t

/-- C1 witness: a recorded start time of 3 at index 0 survives two later
calls that revert index 0 to pending and then to completed. -/
theorem first_write_wins_witness :
    wtStart.task_start_times 0 = some 3 ∧
    (runUpdates wtStart
      [([⟨some "pending", some "x"⟩], 4), ([⟨some "completed", some "x"⟩], 5)]
      ).task_start_times 0 = some 3 :=
  ⟨rfl, (first_write_wins wtStart
    [([⟨some "pending", some "x"⟩], 4), ([⟨some "completed", some "x"⟩], 5)]
    0 3).1 rfl⟩

/-! ### C4 -/

/-- C4 counterexample: after a snapshot at time 1 records index 0 as
completed (with no start time), a later snapshot at time 2 reverting
index 0 to in progress does change the recorded start time for index 0
(from absent to 2). -/
theorem post_completion_cex :
    cexS1.task_end_times 0 = some 1 ∧
    cexS1.task_start_times 0 = none ∧
    cexS2.task_start_times 0 = some 2 := by
  refine ⟨by decide, by decide, by decide⟩

/-- C4 amended: once index `i` has an end time, later `update_todos`
calls never change that end time, and never change a start time that was
recorded; only a start time that was never recorded can still be filled
in by a later in-progress snapshot. -/
theorem post_completion_frozen (s : TodoTracker)
    (calls : List (List Todo × ℚ)) (i : Int) (e : ℚ)
    (he : s.task_end_times i = some e) :
    (runUpdates s calls).task_end_times i = some e ∧
    (∀ t : ℚ, s.task_start_times i = some t →
      (runUpdates s calls).task_start_times i = some t) :=
  ⟨(runUpdates_pres s calls i e).2 he,
   fun t ht => (runUpdates_pres s calls i t).1 ht⟩

/-- C4 witness: with end time 7 recorded at index 0, a later reverting
snapshot leaves the end time unchanged. -/
theorem post_completion_frozen_witness :
    wtEnd.task_end_times 0 = some 7 ∧
    (runUpdates wtEnd [([⟨some "in_progress", some "x"⟩], 9)]
      ).task_end_times 0 = some 7 :=
  ⟨rfl, (post_completion_frozen wtEnd [([⟨some "in_progress", some "x"⟩], 9)]
    0 7 rfl).1⟩

/-! ### C2 -/

/-- C2. `get_task_time` follows the three-case specification whenever the
run start time has been set (as `run_agent_with_ui` does before any
rendering; `time.time()` readings are positive): with an end time the
result is the end time minus (the recorded start time, or the run start
time if none was recorded); else with a start time it is now minus that
start time; else it is 0. -/
theorem get_task_time_three_cases (s : TodoTracker) (now r : ℚ)
    (hr : s.agent_start_time = some r) (hr0 : 0 < r) (i : Int) :
    (∀ e : ℚ, s.task_end_times i = some e →
      getTaskTime s now i = e - ((s.task_start_times i).getD r)) ∧
    (s.task_end_times i = none → ∀ st : ℚ, s.task_start_times i = some st →
      getTaskTime s now i = now - st) ∧
    (s.task_end_times i = none → s.task_start_times i = none →
      getTaskTime s now i = 0) := by
  refine ⟨fun e he => ?_, fun hn st hst => ?_, fun hn hst => ?_⟩
  · simp [getTaskTime, he, pyOrQ, hr, hr0.ne']
  · simp [getTaskTime, hn, hst]
  · simp [getTaskTime, hn, hst]

/-- C2 witness: a task completed at time 7 that was never observed in
progress gets duration end time minus run start time, 7 - 5 = 2. -/
theorem get_task_time_three_cases_witness :
    wtEnd.agent_start_time = some 5 ∧ (0:ℚ) < 5 ∧
    getTaskTime wtEnd 10 0 = 7 - ((wtEnd.task_start_times 0).getD 5) ∧
    getTaskTime wtEnd 10 0 = 2 := by
  refine ⟨rfl, by norm_num, (get_task_time_three_cases wtEnd 10 5 rfl (by norm_num) 0).1 7 rfl, ?_⟩
  unfold getTaskTime
  rw [show wtEnd.task_end_times 0 = some 7 from rfl,
      show wtEnd.task_start_times 0 = none from rfl]
  simp [pyOrQ, wtEnd]
  norm_num

/-! ### C3 -/

/-- C3. Monotonicity of in-progress durations: while index `i` has a
recorded start time and no recorded end time, `get_task_time` is
monotonically non-decreasing in the current time. -/
theorem get_task_time_monotone (s : TodoTracker) (i : Int) (st t1 t2 : ℚ)
    (hst : s.task_start_times i = some st)
    (hend : s.task_end_times i = none)
    (h12 : t1 ≤ t2) :
    getTaskTime s t1 i ≤ getTaskTime s t2 i := by
  simp only [getTaskTime, hend, hst]
  exact sub_le_sub_right h12 st

/-- C3 witness: with a start time of 3 and no end time at index 0,
the duration at time 4 is at most the duration at time 6. -/
theorem get_task_time_monotone_witness :
    wtStart.task_start_times 0 = some 3 ∧
    wtStart.task_end_times 0 = none ∧ (4:ℚ) ≤ 6 ∧
    getTaskTime wtStart 4 0 ≤ getTaskTime wtStart 6 0 :=
  ⟨rfl, rfl, by norm_num,
   get_task_time_monotone wtStart 0 3 4 6 rfl rfl (by norm_num)⟩

/-! ### C10 -/

/-- C10. Totality of `get_task_time`: the embedded function is total over
all integer indices (so no index, in range or not, can raise), and an
index with no recorded start time and no recorded end time yields
exactly 0. -/
theorem get_task_time_total_zero (s : TodoTracker) (now : ℚ) (i : Int)
    (hend : s.task_end_times i = none)
    (hst : s.task_start_times i = none) :
    getTaskTime s now i = 0 := by
  simp [getTaskTime, hend, hst]

/-- C10 witness: the fresh tracker yields 0 at the never-seen index -3. -/
theorem get_task_time_total_zero_witness :
    initTracker.task_end_times (-3) = none ∧
    initTracker.task_start_times (-3) = none ∧
    getTaskTime initTracker 9 (-3) = 0 :=
  ⟨rfl, rfl, get_task_time_total_zero initTracker 9 (-3) rfl rfl⟩

/-! ### C7 -/

/-- C7 counterexample: `update_message` passed a multi-line preview with
no surrounding whitespace stores it verbatim, newline included — the
stored value is not collapsed to a single line. -/
theorem update_message_newline_cex :
    Char.ofNat 10 ∈
      ((updateMessage initTracker "A" ("a" ++ nlStr ++ "b")
        ).current_message_preview).data := by
  decide

/-- C7 amended: `update_message` replaces the current message state on
every call, and the stored preview is the input stripped of surrounding
whitespace; collapsing to a single line happens only later, at render
time, in `create_table`. -/
theorem update_message_replaces_strips (s : TodoTracker) (ty pv : String) :
    (updateMessage s ty pv).current_message_type = ty ∧
    (updateMessage s ty pv).current_message_preview = pyStrip pv := by
  refine ⟨rfl, ?_⟩
  by_cases h : pv = ""
  · subst h
    simp only [updateMessage, pyTruthyStr]
    decide
  · simp [updateMessage, pyTruthyStr, h]

/-! ### C8 -/

/-- C8. No-result is fatal: the receive loop of `PostgresAgent.run` ends
in the `RuntimeError` exactly when the message stream contains no
`ResultMessage`, and returns normally only when a `ResultMessage` was
received. -/
theorem run_no_result_fatal (msgs : List AgentMessage) :
    (runReceive msgs = Except.error "No result message received from agent" ↔
      ∀ r : ResultMessage, AgentMessage.result r ∉ msgs) ∧
    (∀ r : ResultMessage, runReceive msgs = Except.ok r →
      AgentMessage.result r ∈ msgs) := by
  induction msgs with
  | nil =>
      refine ⟨?_, ?_⟩
      · simp [runReceive, findResult]
      · intro r h
        simp [runReceive, findResult] at h
  | cons m rest ih =>
      cases m with
      | result r0 =>
          refine ⟨?_, ?_⟩
          · constructor
            · intro h
              simp [runReceive, findResult] at h
            · intro h
              exact absurd (List.mem_cons_self _ _) (h r0)
          · intro r h
            simp [runReceive, findResult] at h
            simp [h]
      | other nm =>
          have hstep : runReceive (AgentMessage.other nm :: rest) = runReceive rest := by
            simp [runReceive, findResult]
          refine ⟨?_, ?_⟩
          · rw [hstep, ih.1]
            constructor
            · intro h r hr
              rcases List.mem_cons.mp hr with h1 | h2
              · exact AgentMessage.noConfusion h1
              · exact h r h2
            · intro h r hr
              exact h r (List.mem_cons_of_mem _ hr)
          · intro r h
            rw [hstep] at h
            exact List.mem_cons_of_mem _ (ih.2 r h)

/-- C8 witness: an empty stream raises the no-result error, and a stream
holding a `ResultMessage` after another message returns it, having
received it. -/
theorem run_no_result_fatal_witness :
    runReceive [] = Except.error "No result message received from agent" ∧
    AgentMessage.result wRes ∈
      [AgentMessage.other "SystemMessage", AgentMessage.result wRes] :=
  ⟨(run_no_result_fatal []).1.mpr (by simp),
   (run_no_result_fatal [AgentMessage.other "SystemMessage",
     AgentMessage.result wRes]).2 wRes rfl⟩

/-! ### C9 -/

/-- C9 counterexample: a result whose cost data is present but equal to 0
gets no cost suffix — the stats line is the bare duration/turns text. -/
theorem stats_line_zero_cost_cex :
    wRes0.total_cost_usd.isSome = true ∧
    statsLine wRes0 = "Duration: 1.0s | Turns: 3" := by
  refine ⟨rfl, ?_⟩
  unfold wRes0 statsLine statsBase pyTruthyQ fmtFixed
  norm_num
  decide

/-- C9 amended: the stats line is
`Duration: <duration_ms/1000, 1 decimal>s | Turns: <integer>`, and the
cost suffix `| Cost: $<4 decimals>` is appended exactly when cost data is
present and nonzero. -/
theorem stats_line_format (r : ResultMessage) :
    statsBase r = "Duration: " ++ fmtFixed 1 (r.duration_ms / 1000)
      ++ "s | Turns: " ++ toString r.num_turns ∧
    (r.total_cost_usd = none → statsLine r = statsBase r) ∧
    (r.total_cost_usd = some 0 → statsLine r = statsBase r) ∧
    (∀ c : ℚ, r.total_cost_usd = some c → c ≠ 0 →
      statsLine r = statsBase r ++ " | Cost: $" ++ fmtFixed 4 c) := by
  refine ⟨rfl, fun h => ?_, fun h => ?_, fun c hc hc0 => ?_⟩
  · simp [statsLine, pyTruthyQ, h]
  · simp [statsLine, pyTruthyQ, h]
  · simp [statsLine, pyTruthyQ, hc, hc0]

/-- C9 witness: a result with nonzero cost 1/8 gets the cost suffix. -/
theorem stats_line_format_witness :
    wRes.total_cost_usd = some (1/8) ∧ ((1:ℚ)/8) ≠ 0 ∧
    statsLine wRes = statsBase wRes ++ " | Cost: $" ++ fmtFixed 4 (1/8) :=
  ⟨rfl, by norm_num,
   (stats_line_format wRes).2.2.2 (1/8) rfl (by norm_num)⟩

/-! ### C5 -/

/-- The `update_todos` loop treats a todo exactly like its normalized
form: only the defaulted status is inspected. -/
theorem recordAll_map_normalize (now : ℚ) (l : List (Nat × Todo)) :
    ∀ p, recordAll now (l.map (Prod.map id normalizeTodo)) p = recordAll now l p := by
  induction l with
  | nil => intro p; rfl
  | cons hd tl ih =>
      intro p
      obtain ⟨k, td⟩ := hd
      show recordAll now (tl.map (Prod.map id normalizeTodo))
          (recordTodo now (k : Int) td p)
        = recordAll now tl (recordTodo now (k : Int) td p)
      exact ih _

/-- C5. Malformed todo entries are tolerated defensively: both
`update_todos` and `create_table` (total functions in this embedding, so
neither can raise) treat a todo exactly like the todo with a missing
status replaced by `"pending"` and a missing content replaced by `""`. -/
theorem malformed_tolerated (s : TodoTracker) (todos : List Todo)
    (now elapsed : ℚ) (sp : String) :
    (updateTodos s (todos.map normalizeTodo) now).task_start_times
      = (updateTodos s todos now).task_start_times ∧
    (updateTodos s (todos.map normalizeTodo) now).task_end_times
      = (updateTodos s todos now).task_end_times ∧
    createTable { s with todos := s.todos.map normalizeTodo } now elapsed sp
      = createTable s now elapsed sp ∧
    (∀ c, Todo.getStatus ⟨none, c⟩ = "pending") ∧
    (∀ st, Todo.getContent ⟨st, none⟩ = "") := by
  have key : recordAll now (todos.map normalizeTodo).enum
      (s.task_start_times, s.task_end_times)
      = recordAll now todos.enum (s.task_start_times, s.task_end_times) := by
    rw [List.enum_map]
    exact recordAll_map_normalize now todos.enum _
  refine ⟨?_, ?_, ?_, fun c => rfl, fun st => rfl⟩
  · show (recordAll now (todos.map normalizeTodo).enum _).1 = _
    rw [key]; rfl
  · show (recordAll now (todos.map normalizeTodo).enum _).2 = _
    rw [key]; rfl
  · unfold createTable
    by_cases h : s.todos = []
    · simp [h, headerMsg]
    · have h' : s.todos.map normalizeTodo ≠ [] := by
        simpa using h
      show (if s.todos.map normalizeTodo = [] then _ else _) = _
      rw [if_neg h', if_neg h]
      have hrows : (s.todos.map normalizeTodo).enum.map
          (fun it => TableRow.task
            (renderTask { s with todos := s.todos.map normalizeTodo } now sp (it.1 : Int) it.2))
          = s.todos.enum.map
            (fun it => TableRow.task (renderTask s now sp (it.1 : Int) it.2)) := by
        rw [List.enum_map, List.map_map]
        rfl
      rw [hrows]
      rfl

/-! ### C6 -/

/-- C6. Per-todo rendering: for a non-empty snapshot the table is the
header, a blank line, and one row per todo in snapshot order; completed
and in-progress rows carry the elapsed duration to one decimal place in
parentheses while pending rows carry none; and the icon styles of the
three statuses are pairwise distinct. -/
theorem create_table_per_todo (s : TodoTracker) (now elapsed : ℚ)
    (sp : String) (h : s.todos ≠ []) :
    createTable s now elapsed sp
      = TableRow.header ("Agent Execution (" ++ fmtFixed 1 elapsed ++ "s) - ")
          (headerMsg s)
        :: TableRow.blank
        :: s.todos.enum.map
          (fun it => TableRow.task (renderTask s now sp (it.1 : Int) it.2)) ∧
    (∀ (i : Int) (td : Todo), td.getStatus = "completed" →
      renderTask s now sp i td
        = ⟨"[✓]", "green bold", td.getContent,
           "(" ++ fmtFixed 1 (getTaskTime s now i) ++ "s)"⟩) ∧
    (∀ (i : Int) (td : Todo), td.getStatus = "in_progress" →
      renderTask s now sp i td
        = ⟨"[" ++ sp ++ "]", "cyan bold", td.getContent,
           "(" ++ fmtFixed 1 (getTaskTime s now i) ++ "s)"⟩) ∧
    (∀ (i : Int) (td : Todo), td.getStatus ≠ "completed" →
      td.getStatus ≠ "in_progress" →
      renderTask s now sp i td = ⟨"[ ]", "dim", td.getContent, ""⟩) ∧
    (∀ (i j : Int) (td tu : Todo), td.getStatus = "completed" →
      tu.getStatus ≠ "completed" →
      (renderTask s now sp i td).iconStyle ≠ (renderTask s now sp j tu).iconStyle) ∧
    (∀ (i j : Int) (td tu : Todo), td.getStatus = "in_progress" →
      tu.getStatus ≠ "completed" → tu.getStatus ≠ "in_progress" →
      (renderTask s now sp i td).iconStyle ≠ (renderTask s now sp j tu).iconStyle) := by
  refine ⟨?_, fun i td hc => ?_, fun i td hp => ?_, fun i td h1 h2 => ?_,
    fun i j td tu h1 h2 => ?_, fun i j td tu h1 h2 h3 => ?_⟩
  · unfold createTable
    rw [if_neg h]
  · simp [renderTask, hc]
  · simp [renderTask, hp]
  · simp [renderTask, h1, h2]
  · simp only [renderTask, h1, if_pos rfl, if_neg h2]
    by_cases h4 : tu.getStatus = "in_progress" <;> simp [h2, h4]
  · simp [renderTask, h1, h2, h3]

/-- C6 witness: the example from the spec — a single pending todo "x" renders
with the unchecked glyph and no duration suffix. -/
theorem create_table_per_todo_witness :
    wtPending.todos ≠ [] ∧
    createTable wtPending 3 3 "⠋"
      = [TableRow.header "Agent Execution (3.0s) - " "Waiting for response...",
         TableRow.blank, TableRow.task ⟨"[ ]", "dim", "x", ""⟩] := by
  refine ⟨by decide, ?_⟩
  rw [(create_table_per_todo wtPending 3 3 "⠋" (by decide)).1]
  unfold wtPending initTracker headerMsg fmtFixed renderTask
  norm_num
  decide
